import Mathlib

/-!
Verification development for the wtd wikitable-to-database extractor.

The source program (src/main.rs) extracts the first table carrying the
wikitable styling class from an HTML document, infers a SQL column type per
column from the first row of data cells, and emits CREATE TABLE and INSERT
statements.  The pure string-processing layer (tag and citation stripping,
numeric-punctuation normalization, type inference, row cleaning, statement
building) is embedded directly on Lean strings and character lists.  The
HTML-selector layer (the scraper crate) is embedded over an abstract
already-parsed document structure: a document carries the list of matching
wikitable elements, each table its tbody elements, each tbody its rows, and
each row its cells, where every cell knows whether it is a header cell (th)
or a data cell (td), together with its inner-HTML text.  Rust functions that
can panic (slice out of range, Option or Result unwrap) are embedded with an
Option layer whose none value denotes a panic.
-/

/-- Whitespace characters trimmed by the trim operation (the ASCII
whitespace characters recognized by the source language's trim). -/
def isWS (c : Char) : Bool :=
  decide (c = ' ') || decide (c = '\t') || decide (c = '\n') || decide (c = '\r') ||
    decide (c = Char.ofNat 11) || decide (c = Char.ofNat 12)

/-- Both-ends whitespace trim of a character list, modelling str::trim. -/
def trimChars (l : List Char) : List Char :=
  ((l.dropWhile isWS).reverse.dropWhile isWS).reverse

/-- Does the text start with the given pattern? -/
def leadsWith : List Char → List Char → Bool
  | [], _ => true
  | _ :: _, [] => false
  | p :: ps, c :: rest => decide (p = c) && leadsWith ps rest

/-- Does the pattern occur as a contiguous substring of the text? -/
def containsSub (pat : List Char) : List Char → Bool
  | [] => leadsWith pat []
  | c :: rest => leadsWith pat (c :: rest) || containsSub pat rest

/-- Fuelled worker for replaceAll.  The fuel starts at the length of the
text, and every step consumes one unit while removing at least one
character of text, so the fuel never runs out on the initial call. -/
def replaceAllGo (pat rep : List Char) : Nat → List Char → List Char
  | _, [] => []
  | 0, l => l
  | Nat.succ fuel, c :: rest =>
    if leadsWith pat (c :: rest) then
      rep ++ replaceAllGo pat rep fuel ((c :: rest).drop pat.length)
    else
      c :: replaceAllGo pat rep fuel rest

/-- Replace every non-overlapping occurrence of pat by rep, scanning left to
right and never rescanning the replacement text: the model of
str::replace. -/
def replaceAll (pat rep l : List Char) : List Char :=
  replaceAllGo pat rep l.length l

/-- Tag-removal automaton.  The state none means scanning ordinary text; the
state some buf means a candidate tag opener was seen and buf holds the
characters consumed since (starting with that opening angle bracket).  On a
closing angle bracket the whole buffered candidate is dropped; on a newline
or at the end of input no match is possible for the buffered opener (the
regex dot does not cross newlines, and any opener inside the buffer is also
doomed because a closer reachable from it would have closed the outer
candidate first), so the buffer is emitted verbatim.  This implements the
non-greedy, leftmost tag-pattern removal the source performs with a single
regex replace_all pass. -/
def rtGo : List Char → Option (List Char) → List Char
  | [], none => []
  | [], some buf => buf
  | c :: rest, none =>
    if c = '<' then rtGo rest (some ['<']) else c :: rtGo rest none
  | c :: rest, some buf =>
    if c = '>' then rtGo rest none
    else if c = '\n' then buf ++ '\n' :: rtGo rest none
    else rtGo rest (some (buf ++ [c]))

/-- Removal of every non-greedy tag-pattern match. -/
def removeTagsChars (l : List Char) : List Char := rtGo l none

/-- Given the characters following a tag opener, the text after the first
closing angle bracket, or none if the end of input or a newline comes
first. -/
def afterTag : List Char → Option (List Char)
  | [] => none
  | c :: rest =>
    if c = '>' then some rest
    else if c = '\n' then none
    else afterTag rest

/-- Is there any tag-pattern match in the text? -/
def hasTag : List Char → Bool
  | [] => false
  | c :: rest => (decide (c = '<') && (afterTag rest).isSome) || hasTag rest

/-- Citation-removal automaton.  The state none means scanning ordinary
text; some buf means an opening square bracket was seen and buf holds the
alphanumeric characters consumed since.  A closing bracket after at least
one alphanumeric completes a citation marker and the whole marker is
dropped; any other character abandons the candidate, emitting it verbatim
(an opening bracket restarts a candidate).  This implements removal of
every bracketed alphanumeric citation marker. -/
def citGo : List Char → Option (List Char) → List Char
  | [], none => []
  | [], some buf => '[' :: buf
  | c :: rest, none =>
    if c = '[' then citGo rest (some []) else c :: citGo rest none
  | c :: rest, some buf =>
    if c.isAlphanum then citGo rest (some (buf ++ [c]))
    else if c = ']' ∧ buf ≠ [] then citGo rest none
    else if c = '[' then '[' :: buf ++ citGo rest (some [])
    else '[' :: buf ++ c :: citGo rest none

/-- The value of a digit string read in base ten. -/
def digitsVal (l : List Char) : Nat :=
  l.foldl (fun a c => a * 10 + (c.toNat - ('0').toNat)) 0

/-- Does the string parse as a 64-bit signed integer (optional sign, one or
more decimal digits, value within the i64 range)?  Models
str::parse::<i64>. -/
def parses_i64 (l : List Char) : Bool :=
  match l with
  | [] => false
  | c :: rest =>
    if c = '+' then
      !rest.isEmpty && rest.all Char.isDigit &&
        decide (digitsVal rest ≤ 9223372036854775807)
    else if c = '-' then
      !rest.isEmpty && rest.all Char.isDigit &&
        decide (digitsVal rest ≤ 9223372036854775808)
    else
      (c :: rest).all Char.isDigit &&
        decide (digitsVal (c :: rest) ≤ 9223372036854775807)

/-- Drop one leading sign character if present. -/
def sgnStrip (l : List Char) : List Char :=
  match l with
  | [] => []
  | c :: rest => if c = '+' ∨ c = '-' then rest else c :: rest

/-- Accept an optional exponent part consuming the whole remaining input:
either nothing, or an exponent marker, an optional sign and one or more
digits. -/
def expPart (l : List Char) : Bool :=
  match l with
  | [] => true
  | c :: rest =>
    (decide (c = 'e') || decide (c = 'E')) &&
      (!(sgnStrip rest).isEmpty && (sgnStrip rest).all Char.isDigit)

/-- Accept what may follow the leading digit group of a float: an optional
dot with optional further digits, then an optional exponent. -/
def fracExp (l : List Char) : Bool :=
  match l with
  | [] => true
  | c :: rest =>
    if c = '.' then expPart (rest.dropWhile Char.isDigit)
    else expPart (c :: rest)

/-- Accept the unsigned number forms of the float grammar. -/
def numberOk (l : List Char) : Bool :=
  match l with
  | [] => false
  | c :: rest =>
    if c = '.' then
      !(rest.takeWhile Char.isDigit).isEmpty &&
        expPart (rest.dropWhile Char.isDigit)
    else
      !((c :: rest).takeWhile Char.isDigit).isEmpty &&
        fracExp ((c :: rest).dropWhile Char.isDigit)

/-- Case-insensitive comparison against a lowercase word. -/
def lowEq (l w : List Char) : Bool := decide (l.map Char.toLower = w)

/-- Does the string parse as a 64-bit float?  Models str::parse::<f64>,
whose success is purely syntactic: an optional sign followed by a
case-insensitive infinity or nan word or by a number with optional
fractional part and exponent. -/
def parses_f64 (l : List Char) : Bool :=
  lowEq (sgnStrip l) (("inf").data) || lowEq (sgnStrip l) (("infinity").data) ||
    lowEq (sgnStrip l) (("nan").data) || numberOk (sgnStrip l)

/-- Does the string parse as a boolean literal (exact, case-sensitive)?
Models str::parse::<bool>. -/
def parses_bool (s : String) : Bool :=
  decide (s = ("true")) || decide (s = ("false"))

/-- The four SQL column types the program can infer. -/
inductive SqlTypes where
  | INTEGER : SqlTypes
  | REAL : SqlTypes
  | NUMERIC : SqlTypes
  | TEXT : SqlTypes
  deriving DecidableEq

/-- The textual name of a type, as printed by the derived Display. -/
def SqlTypes.toStr : SqlTypes → String
  | SqlTypes.INTEGER => ("INTEGER")
  | SqlTypes.REAL => ("REAL")
  | SqlTypes.NUMERIC => ("NUMERIC")
  | SqlTypes.TEXT => ("TEXT")

/-- remove_html_tags: replace non-breaking-space entities and line-break
tags by a space, remove every tag-pattern match, and trim. -/
def remove_html_tags (s : String) : String :=
  ⟨trimChars (removeTagsChars (replaceAll (("<br>").data) ((" ").data)
      (replaceAll (("&nbsp;").data) ((" ").data) s.data)))⟩

/-- remove_wiki_citation_links: remove every bracketed alphanumeric
citation marker. -/
def remove_wiki_citation_links (s : String) : String :=
  ⟨citGo s.data none⟩

/-- clean_integer_or_double_string: remove thousands-separator commas, then
percent signs. -/
def clean_integer_or_double_string (s : String) : String :=
  ⟨replaceAll (("%").data) (("").data)
      (replaceAll ((",").data) (("").data) s.data)⟩

/-- remove_apostrophe: double every apostrophe for SQL quoting. -/
def remove_apostrophe (s : String) : String :=
  ⟨replaceAll (("'").data) (("''").data) s.data⟩

/-- A standalone trim, modelling str::trim where the source calls it. -/
def strTrim (s : String) : String := ⟨trimChars s.data⟩

/-- The tag-and-citation-stripped form of a sample datum, as built inside
derive_type. -/
def derive_stripped (s : String) : String :=
  remove_wiki_citation_links (remove_html_tags s)

/-- The fully cleaned form of a sample datum (tags and citations stripped,
then numeric punctuation removed), as built inside derive_type. -/
def derive_cleaned (s : String) : String :=
  clean_integer_or_double_string (derive_stripped s)

/-- derive_type: infer the SQL type of one sample datum, first match
wins. -/
def derive_type (sample_datum : String) : SqlTypes :=
  if parses_i64 (derive_cleaned sample_datum).data then SqlTypes.INTEGER
  else if parses_f64 (derive_cleaned sample_datum).data then SqlTypes.REAL
  else if parses_bool (derive_stripped sample_datum) then SqlTypes.NUMERIC
  else SqlTypes.TEXT

/-- clean_header_string: strip tags, strip citations, trim. -/
def clean_header_string (header : String) : String :=
  strTrim (remove_wiki_citation_links (remove_html_tags header))

/-- The per-cell body of clean_row: strip tags, double apostrophes, strip
citations, remove numeric punctuation; emit the value bare if it parses as
an integer or a float, else the trimmed text wrapped in single quotes. -/
def cleanCell (e : String) : String :=
  let removed_tags := remove_html_tags e
  let removed_apostrophe := remove_apostrophe removed_tags
  let removed_citations := remove_wiki_citation_links removed_apostrophe
  let int_or_double := clean_integer_or_double_string removed_citations
  let trimmed := strTrim int_or_double
  if parses_i64 int_or_double.data then int_or_double
  else if parses_f64 int_or_double.data then int_or_double
  else ("'") ++ trimmed ++ ("'")

/-- clean_row: clean every cell of a row into a SQL-literal-ready token. -/
def clean_row (row : List String) : List String := row.map cleanCell

/-- The kind of a table cell: header cell (th) or data cell (td). -/
inductive CellKind where
  | th : CellKind
  | td : CellKind
  deriving DecidableEq

/-- A parsed table cell: its kind and its inner-HTML text. -/
structure Cell where
  kind : CellKind
  inner : String
  deriving DecidableEq

/-- A parsed tbody element: its rows, each row its cells in document
order. -/
structure TableBody where
  rows : List (List Cell)
  deriving DecidableEq

/-- A parsed table element carrying the wikitable styling class: its tbody
elements in document order. -/
structure WikiTable where
  tbodies : List TableBody
  deriving DecidableEq

/-- A parsed HTML document, restricted to what the selectors in the source
can observe: the wikitable-class tables and the level-one heading texts, in
document order. -/
structure Doc where
  tables : List WikiTable
  headings : List String
  deriving DecidableEq

/-- The failure cases of the program. -/
inductive WtdError where
  | TableNotFound : WtdError
  | TableBodyNotFound : WtdError
  | HeaderAndTypesAmountMismatch : WtdError
  | TableHeaderNotFound : WtdError
  | UnableToReachPage : WtdError
  | UnsuccessFulRequest : WtdError
  | ResponseBodyError : WtdError
  | Sqlite3Connection : WtdError
  | Sqlite3InsertError : WtdError
  | CreateTableError : WtdError
  deriving DecidableEq

/-- get_page_title_from_html: the inner text of every level-one heading. -/
def get_page_title_from_html (d : Doc) : List String := d.headings

/-- The inner text of every data cell of a table, in document order
(selecting td over the whole table element). -/
def tableTdCells (t : WikiTable) : List String :=
  (((t.tbodies.map TableBody.rows).flatten.flatten).filter
      (fun c => decide (c.kind = CellKind.td))).map Cell.inner

/-- get_table_cells: the data-cell texts of the first wikitable.  The
source unwraps the selector's first result, so a document with no
wikitable panics: that is the none value. -/
def get_table_cells (d : Doc) : Option (List String) :=
  match d.tables.head? with
  | none => none
  | some t => some (tableTdCells t)

/-- get_table_header_types: the inferred type names of the first num data
cells.  The source slices all_data[0..num], which panics when fewer than
num data cells exist: that and the missing-table panic are the none
value. -/
def get_table_header_types (d : Doc) (num : Nat) : Option (List String) :=
  match get_table_cells d with
  | none => none
  | some all_data =>
    if num ≤ all_data.length then
      some ((all_data.take num).map (fun s => SqlTypes.toStr (derive_type s)))
    else none

/-- The header-cell texts of every row of a tbody. -/
def thTexts (tb : TableBody) : List (List String) :=
  tb.rows.map (fun r =>
    (r.filter (fun c => decide (c.kind = CellKind.th))).map Cell.inner)

/-- get_table_header_names: the cleaned header-cell texts of row zero of
the first tbody of the first wikitable.  No wikitable and no tbody are the
two error results; the source unwraps rows.get(0), so a tbody with zero
rows panics: that is the none value. -/
def get_table_header_names (d : Doc) : Option (Except WtdError (List String)) :=
  match d.tables.head? with
  | none => some (Except.error WtdError.TableNotFound)
  | some t =>
    match t.tbodies.head? with
    | none => some (Except.error WtdError.TableBodyNotFound)
    | some tb =>
      match (thTexts tb).head? with
      | none => none
      | some row0 => some (Except.ok (row0.map clean_header_string))

/-- get_raw_table_rows: every row of the first tbody of the first
wikitable except the first row, each row the inner text of all its cells
(data or header). -/
def get_raw_table_rows (d : Doc) : Except WtdError (List (List String)) :=
  match d.tables.head? with
  | none => Except.error WtdError.TableNotFound
  | some t =>
    match t.tbodies.head? with
    | none => Except.error WtdError.TableBodyNotFound
    | some tb => Except.ok ((tb.rows.drop 1).map (fun r => r.map Cell.inner))

/-- The pairing loop of get_table_headers_and_types_from_html: walk the
headers, popping one type from the end of the reversed type list for each;
popping from an exhausted list would unwrap none and panic. -/
def popAll : List String → List String → Option (List (String × String))
  | [], _ => some []
  | h :: hs, stack =>
    match stack.getLast? with
    | none => none
    | some t => (popAll hs stack.dropLast).map (fun l => (h, t) :: l)

/-- The arity check and pairing step of get_table_headers_and_types_from_html:
reverse the types, and if the counts agree pair each header with a popped
type, else fail with HeaderAndTypesAmountMismatch. -/
def pair_headers_with_types (table_headers table_header_types : List String) :
    Option (Except WtdError (List (String × String))) :=
  if table_headers.length = table_header_types.length then
    match popAll table_headers table_header_types.reverse with
    | some l => some (Except.ok l)
    | none => none
  else some (Except.error WtdError.HeaderAndTypesAmountMismatch)

/-- get_table_headers_and_types_from_html: extract the header names, infer
one type per header from the leading data cells, and pair them. -/
def get_table_headers_and_types_from_html (d : Doc) :
    Option (Except WtdError (List (String × String))) :=
  match get_table_header_names d with
  | none => none
  | some (Except.error e) => some (Except.error e)
  | some (Except.ok table_headers) =>
    match get_table_header_types d table_headers.length with
    | none => none
    | some table_header_types =>
      pair_headers_with_types table_headers table_header_types

/-- Spaces of a table name become underscores in the emitted SQL. -/
def underscoreName (s : String) : String :=
  ⟨replaceAll ((" ").data) (("_").data) s.data⟩

/-- Comma-space joining of the cleaned cell tokens of one row. -/
def joinCells (l : List String) : String := String.intercalate (", ") l

/-- One step of the insert-statement building loop of
create_insert_statement: skip a row whose cleaned form is empty, start the
statement on the first kept row, append a further parenthesized tuple for
every later kept row. -/
def insertStep (table_name : String) (acc : String) (r : List String) : String :=
  let cleaned_row := clean_row r
  if cleaned_row = [] then acc
  else if acc = ("") then
    ("INSERT into ") ++ underscoreName table_name ++ (" VALUES (") ++
      joinCells cleaned_row ++ (")")
  else acc ++ (", (") ++ joinCells cleaned_row ++ (")")

/-- create_insert_statement: fold the body rows into one INSERT statement
and terminate it with a semicolon. -/
def create_insert_statement (table_name : String) (d : Doc) :
    Except WtdError String :=
  match get_raw_table_rows d with
  | Except.ok rows =>
    Except.ok ((rows.foldl (insertStep table_name) (("" : String))) ++ (";"))
  | Except.error err => Except.error err

/-- The observable behaviour of the sqlite collaborator: whether opening
the database succeeds, and whether executing a given statement succeeds. -/
structure Db where
  openOk : Bool
  execOk : String → Bool

/-- The CREATE TABLE statement text built by create_table. -/
def buildCreateString (table_name : String)
    (headers_and_types : List (String × String)) : String :=
  let table_columns_vec := headers_and_types.map
    (fun p => ("'") ++ p.1 ++ ("' ") ++ p.2 ++ (","))
  let table_columns := (String.intercalate ((" ")) table_columns_vec).dropRight 1
  ("CREATE TABLE '") ++ underscoreName table_name ++ ("' (") ++
    table_columns ++ (");")

/-- create_table: open the database and execute the CREATE TABLE
statement, reporting connection and execution failures as error results. -/
def create_table (table_name : String)
    (headers_and_types : List (String × String)) (db : Db) :
    Except WtdError Unit :=
  if db.openOk then
    if db.execOk (buildCreateString table_name headers_and_types) then
      Except.ok ()
    else Except.error WtdError.CreateTableError
  else Except.error WtdError.Sqlite3Connection

/-- insert_rows: open the database, build the INSERT statement and execute
it, reporting each failure as an error result.  Building the statement can
itself panic (missing header row is reached earlier, but the row extraction
errors are propagated). -/
def insert_rows (table_name : String) (d : Doc) (db : Db) :
    Except WtdError Unit :=
  if db.openOk then
    match create_insert_statement table_name d with
    | Except.ok insert_statement =>
      if db.execOk insert_statement then Except.ok ()
      else Except.error WtdError.Sqlite3InsertError
    | Except.error err => Except.error err
  else Except.error WtdError.Sqlite3Connection

/-- extract_data: extract headers and types, find the page title, create
the table, then insert the rows.  The source calls .unwrap() on the result
of create_table, so a create_table failure panics: that is the none
value. -/
def extract_data (d : Doc) (db : Db) : Option (Except WtdError Unit) :=
  match get_table_headers_and_types_from_html d with
  | none => none
  | some (Except.error err) => some (Except.error err)
  | some (Except.ok headers) =>
    match (get_page_title_from_html d).head? with
    | some table_name =>
      match create_table table_name headers db with
      | Except.ok _ => some (insert_rows table_name d db)
      | Except.error _ => none
    | none => some (Except.error WtdError.TableHeaderNotFound)

/-- The parenthesized value tuples of the kept (non-empty after cleaning)
rows, used to state what create_insert_statement builds. -/
def valuesTuples (rows : List (List String)) : List String :=
  ((rows.map clean_row).filter (fun c => !(decide (c = [])))).map
    (fun c => ("(") ++ joinCells c ++ (")"))

/-- Concatenation of a list of strings. -/
def strConcat : List String → String
  | [] => ("")
  | x :: xs => x ++ strConcat xs

/-- The closed form of the INSERT statement: the degenerate lone semicolon
when no row survives cleaning, else the INSERT header followed by the comma
separated tuples. -/
def specInsert (name : String) (rows : List (List String)) : String :=
  match valuesTuples rows with
  | [] => (";")
  | t :: ts =>
    ("INSERT into ") ++ underscoreName name ++ (" VALUES ") ++ t ++
      strConcat (ts.map (fun t2 => (", ") ++ t2)) ++ (";")

/-- The per-cell cleaning contract as the specification words it, with the
classification read off the comma-and-percent-normalized value: tag strip,
apostrophe doubling, citation strip, numeric-punctuation normalization,
then the value bare when it parses as integer or float and the trimmed
text in single quotes otherwise. -/
def cleanCellSpec (cell : String) : String :=
  let normalized := clean_integer_or_double_string
    (remove_wiki_citation_links (remove_apostrophe (remove_html_tags cell)))
  if parses_i64 normalized.data || parses_f64 normalized.data then normalized
  else ("'") ++ strTrim normalized ++ ("'")

/-- A character that none of the sanitizing passes can touch: not an
ampersand, not an angle-bracket opener, not a square-bracket opener, not
whitespace. -/
def plainChar (c : Char) : Bool :=
  !(decide (c = '&')) && !(decide (c = '<')) && !(decide (c = '[')) && !(isWS c)

/-- A wikitable whose tbody has zero rows. -/
def docC4a : Doc := ⟨[⟨[⟨[]⟩]⟩], []⟩

/-- A wikitable whose single tbody row holds only a data cell, so row zero
of the header extraction is present but empty. -/
def docC4b : Doc := ⟨[⟨[⟨[[⟨CellKind.td, ("x")⟩]]⟩]⟩], []⟩

/-- A well-formed one-column document with a title, used to drive the
pipeline into the database layer. -/
def docC5 : Doc := ⟨[⟨[⟨[[⟨CellKind.th, ("A")⟩], [⟨CellKind.td, ("1")⟩]]⟩]⟩], [("Title")]⟩

/-- A document whose body rows (after the header row) are all empty. -/
def docC6 : Doc := ⟨[⟨[⟨[[⟨CellKind.th, ("H")⟩], [], []]⟩]⟩], []⟩

/-- A well-formed one-column document without a title. -/
def docC7 : Doc := ⟨[⟨[⟨[[⟨CellKind.th, ("A")⟩], [⟨CellKind.td, ("1")⟩]]⟩]⟩], []⟩

/-- A document with body rows of which one is empty. -/
def docC9 : Doc :=
  ⟨[⟨[⟨[[⟨CellKind.th, ("H")⟩], [⟨CellKind.td, ("1")⟩], [], [⟨CellKind.td, ("x")⟩]]⟩]⟩], []⟩

/-- A document with two header columns but a single data cell. -/
def docC10 : Doc :=
  ⟨[⟨[⟨[[⟨CellKind.th, ("A")⟩, ⟨CellKind.th, ("B")⟩], [⟨CellKind.td, ("1")⟩]]⟩]⟩], []⟩

theorem str_data_append (x y : String) : (x ++ y).data = x.data ++ y.data := by
  cases x
  cases y
  rfl

theorem str_eq_iff_data (x y : String) : x = y ↔ x.data = y.data := by
  cases x
  cases y
  exact ⟨fun h => by injection h, fun h => congrArg String.mk h⟩

theorem str_append_assoc (x y z : String) : x ++ y ++ z = x ++ (y ++ z) := by
  rw [str_eq_iff_data]
  rw [str_data_append, str_data_append, str_data_append, str_data_append]
  exact List.append_assoc x.data y.data z.data

theorem str_append_empty (x : String) : x ++ ("") = x := by
  rw [str_eq_iff_data, str_data_append]
  exact List.append_nil x.data

theorem containsSub_of_ne_head (p0 : Char) (ps : List Char) :
    ∀ l : List Char, (∀ c ∈ l, c ≠ p0) → containsSub (p0 :: ps) l = false := by
  intro l
  induction l with
  | nil => intro _; rfl
  | cons c rest ih =>
    intro h
    have hc : decide (p0 = c) = false :=
      decide_eq_false (fun e => h c (List.mem_cons_self c rest) e.symm)
    simp only [containsSub, leadsWith, hc, Bool.false_and, Bool.false_or]
    exact ih (fun x hx => h x (List.mem_cons_of_mem c hx))

theorem replaceAllGo_id (pat rep : List Char) :
    ∀ (fuel : Nat) (l : List Char), containsSub pat l = false →
      replaceAllGo pat rep fuel l = l := by
  intro fuel
  induction fuel with
  | zero => intro l _; cases l <;> rfl
  | succ n ih =>
    intro l h
    cases l with
    | nil => rfl
    | cons c rest =>
      simp only [containsSub, Bool.or_eq_false_iff] at h
      simp only [replaceAllGo, h.1, Bool.false_eq_true, if_false]
      exact congrArg (c :: ·) (ih rest h.2)

theorem replaceAll_id (pat rep : List Char) (l : List Char)
    (h : containsSub pat l = false) : replaceAll pat rep l = l :=
  replaceAllGo_id pat rep l.length l h

theorem replaceAllGo_singleton (x : Char) :
    ∀ (fuel : Nat) (l : List Char), l.length ≤ fuel →
      replaceAllGo [x] [] fuel l = l.filter (fun c => !(decide (c = x))) := by
  intro fuel
  induction fuel with
  | zero =>
    intro l h
    rw [Nat.le_zero] at h
    rw [List.length_eq_zero] at h
    subst h
    rfl
  | succ n ih =>
    intro l h
    cases l with
    | nil => rfl
    | cons c rest =>
      have hrest : rest.length ≤ n := by
        simpa [Nat.succ_le_succ_iff] using h
      by_cases hc : c = x
      · subst hc
        simp only [replaceAllGo, leadsWith, decide_True, Bool.and_true,
          Bool.true_and, if_true, List.drop_succ_cons, List.drop_zero,
          List.nil_append, List.filter_cons, decide_True, Bool.not_true,
          Bool.false_eq_true, if_false]
        exact ih rest hrest
      · have hx : decide (x = c) = false := decide_eq_false (fun e => hc e.symm)
        simp only [replaceAllGo, leadsWith, hx, Bool.false_and,
          Bool.false_eq_true, if_false, List.filter_cons]
        have hcx : (!(decide (c = x))) = true := by simp [hc]
        rw [hcx]
        simp only [if_true]
        exact congrArg (c :: ·) (ih rest hrest)

theorem replaceAll_singleton (x : Char) (l : List Char) :
    replaceAll [x] [] l = l.filter (fun c => !(decide (c = x))) :=
  replaceAllGo_singleton x l.length l (Nat.le_refl _)

theorem rtGo_aux : ∀ l : List Char,
    (hasTag l = false → rtGo l none = l) ∧
    (∀ buf, afterTag l = none → hasTag l = false → rtGo l (some buf) = buf ++ l) := by
  intro l
  induction l with
  | nil =>
    refine ⟨fun _ => rfl, fun buf _ _ => ?_⟩
    simp [rtGo]
  | cons c rest ih =>
    have hsplit : ∀ h : hasTag (c :: rest) = false,
        (decide (c = '<') && (afterTag rest).isSome) = false ∧ hasTag rest = false := by
      intro h
      simpa only [hasTag, Bool.or_eq_false_iff] using h
    constructor
    · intro h
      obtain ⟨h1, h2⟩ := hsplit h
      by_cases hc : c = '<'
      · have hnone : afterTag rest = none := by
          rw [hc] at h1
          simp only [decide_True, Bool.true_and] at h1
          exact Option.not_isSome_iff_eq_none.mp (by simp [h1])
        subst hc
        show rtGo ('<' :: rest) none = '<' :: rest
        have := (ih.2) ['<'] hnone h2
        simpa [rtGo] using this
      · have : rtGo (c :: rest) none = c :: rtGo rest none := by
          simp [rtGo, hc]
        rw [this, ih.1 h2]
    · intro buf hat h
      obtain ⟨h1, h2⟩ := hsplit h
      by_cases hgt : c = '>'
      · exfalso
        rw [hgt] at hat
        simp [afterTag] at hat
      · by_cases hnl : c = '\n'
        · subst hnl
          have : rtGo ('\n' :: rest) (some buf) = buf ++ '\n' :: rtGo rest none := by
            simp [rtGo]
          rw [this, ih.1 h2]
        · have hat' : afterTag rest = none := by
            simpa [afterTag, hgt, hnl] using hat
          have : rtGo (c :: rest) (some buf) = rtGo rest (some (buf ++ [c])) := by
            simp [rtGo, hgt, hnl]
          rw [this, ih.2 (buf ++ [c]) hat' h2]
          simp

theorem removeTags_id (l : List Char) (h : hasTag l = false) :
    removeTagsChars l = l := (rtGo_aux l).1 h

theorem removeTags_id_of_no_lt (l : List Char) (h : ∀ c ∈ l, c ≠ '<') :
    removeTagsChars l = l := by
  refine removeTags_id l ?_
  induction l with
  | nil => rfl
  | cons c rest ih =>
    have hc : decide (c = '<') = false :=
      decide_eq_false (h c (List.mem_cons_self c rest))
    simp only [hasTag, hc, Bool.false_and, Bool.false_or]
    exact ih (fun x hx => h x (List.mem_cons_of_mem c hx))

theorem citGo_id_of_no_lb (l : List Char) (h : ∀ c ∈ l, c ≠ '[') :
    citGo l none = l := by
  induction l with
  | nil => rfl
  | cons c rest ih =>
    have hc : c ≠ '[' := h c (List.mem_cons_self c rest)
    have : citGo (c :: rest) none = c :: citGo rest none := by
      simp [citGo, hc]
    rw [this, ih (fun x hx => h x (List.mem_cons_of_mem c hx))]

theorem dropWhile_dw {α : Type} (p : α → Bool) :
    ∀ l : List α, (l.dropWhile p).dropWhile p = l.dropWhile p := by
  intro l
  induction l with
  | nil => rfl
  | cons c rest ih =>
    rw [List.dropWhile_cons]
    split
    · exact ih
    · next hpc => exact List.dropWhile_cons_of_neg hpc

theorem dropWhile_sfx {α : Type} (p : α → Bool) :
    ∀ l : List α, l.dropWhile p <:+ l := by
  intro l
  induction l with
  | nil => exact List.suffix_refl _
  | cons c rest ih =>
    rw [List.dropWhile_cons]
    split
    · exact ih.trans (List.suffix_cons c rest)
    · exact List.suffix_refl _

theorem dropWhile_trimR {α : Type} (p : α → Bool) (l : List α)
    (hl : l.dropWhile p = l) :
    ((l.reverse.dropWhile p).reverse).dropWhile p =
      (l.reverse.dropWhile p).reverse := by
  have hpre : (l.reverse.dropWhile p).reverse <+: l := by
    have hs' : ((l.reverse.dropWhile p).reverse).reverse <:+ l.reverse := by
      rw [List.reverse_reverse]
      exact dropWhile_sfx p l.reverse
    exact List.reverse_suffix.mp hs'
  cases hm : (l.reverse.dropWhile p).reverse with
  | nil => rfl
  | cons c ms =>
    rw [hm] at hpre
    obtain ⟨t, ht⟩ := hpre
    have hl2 : l = c :: (ms ++ t) := by
      rw [← ht]
      simp
    have hc : p c = false := by
      cases hcc : p c
      · rfl
      · exfalso
        have hdw : l.dropWhile p = (ms ++ t).dropWhile p := by
          rw [hl2]
          exact List.dropWhile_cons_of_pos hcc
        have hlen : l.length ≤ (ms ++ t).length := by
          calc l.length = (l.dropWhile p).length := by rw [hl]
            _ = ((ms ++ t).dropWhile p).length := by rw [hdw]
            _ ≤ (ms ++ t).length := ((dropWhile_sfx p (ms ++ t)).sublist).length_le
        rw [hl2] at hlen
        simp only [List.length_cons] at hlen
        omega
    exact List.dropWhile_cons_of_neg (by simp [hc])

theorem trimChars_idem (l : List Char) : trimChars (trimChars l) = trimChars l := by
  unfold trimChars
  have hAd : (l.dropWhile isWS).dropWhile isWS = l.dropWhile isWS := dropWhile_dw isWS l
  rw [dropWhile_trimR isWS (l.dropWhile isWS) hAd]
  rw [List.reverse_reverse]
  rw [dropWhile_dw]

theorem dropWhile_id_of_none {α : Type} (p : α → Bool) (l : List α)
    (h : ∀ c ∈ l, p c = false) : l.dropWhile p = l := by
  cases l with
  | nil => rfl
  | cons c rest =>
    exact List.dropWhile_cons_of_neg (by simp [h c (List.mem_cons_self c rest)])

theorem trimChars_id_of_no_ws (l : List Char) (h : ∀ c ∈ l, isWS c = false) :
    trimChars l = l := by
  unfold trimChars
  rw [dropWhile_id_of_none isWS l h]
  rw [dropWhile_id_of_none isWS l.reverse (fun c hc => h c (List.mem_reverse.mp hc))]
  exact List.reverse_reverse l

theorem pred_ne {p : Char → Bool} {c x : Char} (h : p c = true) (hx : p x = false) :
    c ≠ x := by
  intro e
  rw [e] at h
  rw [h] at hx
  exact Bool.noConfusion hx

theorem digit_not_ws {c : Char} (h : c.isDigit = true) : isWS c = false := by
  cases hw : isWS c
  · rfl
  · exfalso
    simp only [isWS, Bool.or_eq_true, decide_eq_true_eq] at hw
    rcases hw with ((((e | e) | e) | e) | e) | e <;> (subst e; exact absurd h (by decide))

theorem plainChar_spec {c : Char} (h : plainChar c = true) :
    c ≠ '&' ∧ c ≠ '<' ∧ c ≠ '[' ∧ isWS c = false := by
  simp only [plainChar, Bool.and_eq_true, Bool.not_eq_true',
    decide_eq_false_iff_not] at h
  exact ⟨h.1.1.1, h.1.1.2, h.1.2, h.2⟩

theorem digit_plain {c : Char} (h : c.isDigit = true) : plainChar c = true := by
  have h1 : c ≠ '&' := pred_ne h (by decide)
  have h2 : c ≠ '<' := pred_ne h (by decide)
  have h3 : c ≠ '[' := pred_ne h (by decide)
  have h4 : isWS c = false := digit_not_ws h
  simp [plainChar, h1, h2, h3, h4]

theorem alpha_not_digit {c : Char} (h : c.isAlpha = true) : c.isDigit = false := by
  cases hd : c.isDigit
  · rfl
  · exfalso
    simp only [Char.isDigit, Bool.and_eq_true, decide_eq_true_eq, ge_iff_le] at hd
    simp only [Char.isAlpha, Char.isUpper, Char.isLower, Bool.or_eq_true,
      Bool.and_eq_true, decide_eq_true_eq, ge_iff_le] at h
    obtain ⟨_, hd2⟩ := hd
    rw [UInt32.le_def, BitVec.le_def] at hd2
    rcases h with ⟨h65, _⟩ | ⟨h97, _⟩
    · rw [UInt32.le_def, BitVec.le_def] at h65
      exact absurd (Nat.le_trans h65 hd2) (by decide)
    · rw [UInt32.le_def, BitVec.le_def] at h97
      exact absurd (Nat.le_trans h97 hd2) (by decide)

theorem all_false_of_mem {α : Type} {p : α → Bool} {l : List α} {x : α}
    (hx : x ∈ l) (hpx : p x = false) : l.all p = false := by
  cases hall : l.all p
  · rfl
  · exfalso
    have := List.all_eq_true.mp hall x hx
    rw [hpx] at this
    exact Bool.noConfusion this

theorem parses_i64_digits {l : List Char} (hne : l ≠ [])
    (hd : ∀ c ∈ l, c.isDigit = true)
    (hv : digitsVal l ≤ 9223372036854775807) : parses_i64 l = true := by
  cases l with
  | nil => exact absurd rfl hne
  | cons c rest =>
    have hcd := hd c (List.mem_cons_self c rest)
    have h1 : c ≠ '+' := pred_ne hcd (by decide)
    have h2 : c ≠ '-' := pred_ne hcd (by decide)
    simp only [parses_i64, h1, h2, if_false, Bool.and_eq_true]
    exact ⟨List.all_eq_true.mpr hd, decide_eq_true hv⟩

theorem parses_i64_false_of_alpha {l : List Char}
    (h : ∃ c ∈ l, c.isAlpha = true) : parses_i64 l = false := by
  obtain ⟨x, hx, hxa⟩ := h
  have hxd : x.isDigit = false := alpha_not_digit hxa
  cases l with
  | nil => rfl
  | cons c rest =>
    by_cases hp : c = '+'
    · subst hp
      have hxr : x ∈ rest := by
        rcases List.mem_cons.mp hx with e | hr
        · exfalso
          rw [e] at hxa
          exact absurd hxa (by decide)
        · exact hr
      have hall : rest.all Char.isDigit = false := all_false_of_mem hxr hxd
      simp [parses_i64, hall]
    · by_cases hm : c = '-'
      · subst hm
        have hxr : x ∈ rest := by
          rcases List.mem_cons.mp hx with e | hr
          · exfalso
            rw [e] at hxa
            exact absurd hxa (by decide)
          · exact hr
        have hall : rest.all Char.isDigit = false := all_false_of_mem hxr hxd
        simp [parses_i64, hp, hall]
      · have hall : (c :: rest).all Char.isDigit = false := all_false_of_mem hx hxd
        simp [parses_i64, hp, hm, hall]

theorem parses_i64_false_dot (a b : List Char) (ha : a ≠ [])
    (had : ∀ c ∈ a, c.isDigit = true) : parses_i64 (a ++ '.' :: b) = false := by
  cases a with
  | nil => exact absurd rfl ha
  | cons c rest =>
    have hcd := had c (List.mem_cons_self c rest)
    have h1 : c ≠ '+' := pred_ne hcd (by decide)
    have h2 : c ≠ '-' := pred_ne hcd (by decide)
    have hmem : ('.') ∈ c :: (rest ++ '.' :: b) :=
      List.mem_cons_of_mem c (List.mem_append_right rest (List.mem_cons_self _ b))
    have hall : (c :: (rest ++ '.' :: b)).all Char.isDigit = false :=
      all_false_of_mem hmem (by decide)
    simp [parses_i64, h1, h2, hall]

theorem takeWhile_app {α : Type} (p : α → Bool) :
    ∀ (a : List α) (c : α) (t : List α), (∀ x ∈ a, p x = true) → p c = false →
      (a ++ c :: t).takeWhile p = a ∧ (a ++ c :: t).dropWhile p = c :: t := by
  intro a
  induction a with
  | nil =>
    intro c t _ hc
    constructor
    · exact List.takeWhile_cons_of_neg (by simp [hc])
    · exact List.dropWhile_cons_of_neg (by simp [hc])
  | cons x xs ih =>
    intro c t ha hc
    have hx : p x = true := ha x (List.mem_cons_self x xs)
    have ihx := ih c t (fun y hy => ha y (List.mem_cons_of_mem x hy)) hc
    constructor
    · rw [List.cons_append, List.takeWhile_cons_of_pos hx, ihx.1]
    · rw [List.cons_append, List.dropWhile_cons_of_pos hx]
      exact ihx.2

theorem dropWhile_all {α : Type} (p : α → Bool) (l : List α)
    (h : ∀ x ∈ l, p x = true) : l.dropWhile p = [] := by
  induction l with
  | nil => rfl
  | cons c rest ih =>
    rw [List.dropWhile_cons_of_pos (h c (List.mem_cons_self c rest))]
    exact ih (fun x hx => h x (List.mem_cons_of_mem c hx))

theorem remove_html_tags_id (s : String) (h : ∀ c ∈ s.data, plainChar c = true) :
    remove_html_tags s = s := by
  have hAmp : ∀ c ∈ s.data, c ≠ '&' := fun c hc => (plainChar_spec (h c hc)).1
  have hLt : ∀ c ∈ s.data, c ≠ '<' := fun c hc => (plainChar_spec (h c hc)).2.1
  have hWs : ∀ c ∈ s.data, isWS c = false := fun c hc => (plainChar_spec (h c hc)).2.2.2
  have e1 : ("&nbsp;").data = '&' :: ("nbsp;").data := rfl
  have e2 : ("<br>").data = '<' :: ("br>").data := rfl
  have h1 : replaceAll (("&nbsp;").data) ((" ").data) s.data = s.data := by
    apply replaceAll_id
    rw [e1]
    exact containsSub_of_ne_head '&' _ s.data hAmp
  have h2 : replaceAll (("<br>").data) ((" ").data) s.data = s.data := by
    apply replaceAll_id
    rw [e2]
    exact containsSub_of_ne_head '<' _ s.data hLt
  have h3 : removeTagsChars s.data = s.data := removeTags_id_of_no_lt s.data hLt
  have h4 : trimChars s.data = s.data := trimChars_id_of_no_ws s.data hWs
  apply (str_eq_iff_data _ _).mpr
  show trimChars (removeTagsChars (replaceAll (("<br>").data) ((" ").data)
      (replaceAll (("&nbsp;").data) ((" ").data) s.data))) = s.data
  rw [h1, h2, h3, h4]

theorem derive_stripped_id (s : String) (h : ∀ c ∈ s.data, plainChar c = true) :
    derive_stripped s = s := by
  unfold derive_stripped
  rw [remove_html_tags_id s h]
  have hLb : ∀ c ∈ s.data, c ≠ '[' := fun c hc => (plainChar_spec (h c hc)).2.2.1
  apply (str_eq_iff_data _ _).mpr
  show citGo s.data none = s.data
  exact citGo_id_of_no_lb s.data hLb

theorem popAll_reverse_zip : ∀ (hs ts : List String), hs.length = ts.length →
    popAll hs ts.reverse = some (hs.zip ts) := by
  intro hs
  induction hs with
  | nil => intro ts _; rfl
  | cons h hs ih =>
    intro ts hlen
    cases ts with
    | nil => exact absurd hlen (by simp)
    | cons t ts' =>
      have e : (t :: ts').reverse = ts'.reverse ++ [t] := by simp
      rw [e]
      show popAll (h :: hs) (ts'.reverse ++ [t]) = _
      simp only [popAll, List.getLast?_concat, List.dropLast_concat]
      rw [ih ts' (by simpa using hlen)]
      rfl

theorem get_table_header_types_length {d : Doc} {num : Nat} {ts : List String}
    (h : get_table_header_types d num = some ts) : ts.length = num := by
  unfold get_table_header_types at h
  cases hc : get_table_cells d with
  | none =>
    rw [hc] at h
    exact Option.noConfusion h
  | some all_data =>
    rw [hc] at h
    have h2 : (if num ≤ all_data.length then
        some ((all_data.take num).map (fun s => SqlTypes.toStr (derive_type s)))
      else none) = some ts := h
    by_cases hle : num ≤ all_data.length
    · rw [if_pos hle] at h2
      injection h2 with h'
      rw [← h', List.length_map, List.length_take]
      omega
    · rw [if_neg hle] at h2
      exact Option.noConfusion h2

theorem str_append_paren_ne (x : String) : x ++ (")") ≠ ("") := by
  intro h
  rw [str_eq_iff_data, str_data_append] at h
  have e1 : (((")") : String)).data = [')'] := rfl
  have e2 : ((("") : String)).data = [] := rfl
  rw [e1, e2] at h
  simp at h

theorem foldl_insertStep_ne (name : String) :
    ∀ (rows : List (List String)) (acc : String), acc ≠ ("") →
      rows.foldl (insertStep name) acc =
        acc ++ strConcat ((valuesTuples rows).map (fun t => (", ") ++ t)) := by
  intro rows
  induction rows with
  | nil =>
    intro acc _
    show acc = acc ++ strConcat []
    rw [show strConcat [] = ("") from rfl, str_append_empty]
  | cons r rs ih =>
    intro acc hacc
    by_cases hr : clean_row r = []
    · have hstep : insertStep name acc r = acc := by simp [insertStep, hr]
      have hv : valuesTuples (r :: rs) = valuesTuples rs := by
        simp [valuesTuples, hr]
      rw [List.foldl_cons, hstep, ih acc hacc, hv]
    · have hstep : insertStep name acc r =
          acc ++ (", (") ++ joinCells (clean_row r) ++ (")") := by
        simp [insertStep, hr, hacc]
      have hacc' : acc ++ (", (") ++ joinCells (clean_row r) ++ (")") ≠ ("") :=
        str_append_paren_ne _
      rw [List.foldl_cons, hstep, ih _ hacc']
      have hv : valuesTuples (r :: rs) =
          (("(") ++ joinCells (clean_row r) ++ (")")) :: valuesTuples rs := by
        simp [valuesTuples, hr]
      rw [hv]
      show _ = acc ++ strConcat ((((", ") ++ (("(") ++ joinCells (clean_row r) ++ (")")))) ::
        (valuesTuples rs).map (fun t => (", ") ++ t))
      rw [show ∀ x xs, strConcat (x :: xs) = x ++ strConcat xs from fun _ _ => rfl]
      rw [show ((", (") : String) = (", ") ++ ("(") from rfl]
      simp only [str_append_assoc]

theorem create_insert_fold_spec (name : String) :
    ∀ rows : List (List String),
      (rows.foldl (insertStep name) (("" : String))) ++ (";") = specInsert name rows := by
  intro rows
  induction rows with
  | nil => rfl
  | cons r rs ih =>
    by_cases hr : clean_row r = []
    · have hstep : insertStep name ("") r = ("") := by simp [insertStep, hr]
      have hv : valuesTuples (r :: rs) = valuesTuples rs := by
        simp [valuesTuples, hr]
      rw [List.foldl_cons, hstep, ih]
      unfold specInsert
      rw [hv]
    · have hstep : insertStep name ("") r =
          ("INSERT into ") ++ underscoreName name ++ (" VALUES (") ++
            joinCells (clean_row r) ++ (")") := by
        simp [insertStep, hr]
      have hne : ("INSERT into ") ++ underscoreName name ++ (" VALUES (") ++
          joinCells (clean_row r) ++ (")") ≠ ("") := str_append_paren_ne _
      rw [List.foldl_cons, hstep, foldl_insertStep_ne name rs _ hne]
      have hv : valuesTuples (r :: rs) =
          (("(") ++ joinCells (clean_row r) ++ (")")) :: valuesTuples rs := by
        simp [valuesTuples, hr]
      unfold specInsert
      rw [hv]
      rw [show ((" VALUES (") : String) = (" VALUES ") ++ ("(") from rfl]
      simp only [str_append_assoc]

/-- C1: derive_type is total: for every input string it returns exactly one
of INTEGER, REAL, NUMERIC, TEXT, decided first-match-wins: after stripping
tags and citations then numeric punctuation, a value parsing as a 64-bit
signed integer gives INTEGER; else a value parsing as a 64-bit float gives
REAL; else, when the tag-and-citation-stripped (but not punctuation-
stripped) value parses as the case-sensitive boolean literal, NUMERIC; else
TEXT. -/
theorem wtd_C1 (s : String) :
    (derive_type s = SqlTypes.INTEGER ∨ derive_type s = SqlTypes.REAL ∨
      derive_type s = SqlTypes.NUMERIC ∨ derive_type s = SqlTypes.TEXT) ∧
    (parses_i64 (derive_cleaned s).data = true → derive_type s = SqlTypes.INTEGER) ∧
    (parses_i64 (derive_cleaned s).data = false →
      parses_f64 (derive_cleaned s).data = true → derive_type s = SqlTypes.REAL) ∧
    (parses_i64 (derive_cleaned s).data = false →
      parses_f64 (derive_cleaned s).data = false →
      parses_bool (derive_stripped s) = true → derive_type s = SqlTypes.NUMERIC) ∧
    (parses_i64 (derive_cleaned s).data = false →
      parses_f64 (derive_cleaned s).data = false →
      parses_bool (derive_stripped s) = false → derive_type s = SqlTypes.TEXT) := by
  unfold derive_type
  cases h1 : parses_i64 (derive_cleaned s).data <;>
    cases h2 : parses_f64 (derive_cleaned s).data <;>
      cases h3 : parses_bool (derive_stripped s) <;>
        simp [h1, h2, h3]

/-- Witness for C1 at two concrete inputs, discharging the branch
hypotheses there. -/
theorem wtd_C1_witness :
    derive_type ("42") = SqlTypes.INTEGER ∧ derive_type ("n/a") = SqlTypes.TEXT :=
  ⟨(wtd_C1 ("42")).2.1 (by decide),
   (wtd_C1 ("n/a")).2.2.2.2 (by decide) (by decide) (by decide)⟩

/-- C2 counterexample: the input 1e5 still contains a letter after cleaning
yet derive_type maps it to REAL, not TEXT, because the float parser accepts
exponent notation; likewise a comma-grouped integer beyond the i64 range
maps to REAL, not INTEGER. -/
theorem wtd_C2_counterexample :
    (derive_type ("1e5") = SqlTypes.REAL ∧
      ∃ c ∈ (derive_cleaned ("1e5")).data, c.isAlpha = true) ∧
    (derive_type ("9,223,372,036,854,775,808") = SqlTypes.REAL ∧
      ∀ c ∈ (("9,223,372,036,854,775,808") : String).data,
        c.isDigit = true ∨ c = ',') :=
  ⟨⟨by decide, by decide⟩, ⟨by decide, by decide⟩⟩

/-- C2 (amended): derive_type maps every comma-grouped integer string whose
digits fit in the i64 range to INTEGER, every percent-suffixed decimal
string to REAL, the literals true and false to NUMERIC, and every string
that still contains letters after cleaning, is not accepted by the 64-bit
float parser (which admits exponent, infinity and nan spellings), and is
not a boolean literal, to TEXT. -/
theorem wtd_C2_amended (s : String) :
    ((∀ c ∈ s.data, c.isDigit = true ∨ c = ',') →
      s.data.filter (fun c => !(decide (c = ','))) ≠ [] →
      digitsVal (s.data.filter (fun c => !(decide (c = ',')))) ≤ 9223372036854775807 →
      derive_type s = SqlTypes.INTEGER) ∧
    ((∃ a b, s.data = a ++ '.' :: (b ++ [('%')]) ∧ a ≠ [] ∧ b ≠ [] ∧
        (∀ c ∈ a, c.isDigit = true) ∧ (∀ c ∈ b, c.isDigit = true)) →
      derive_type s = SqlTypes.REAL) ∧
    ((s = ("true") ∨ s = ("false")) → derive_type s = SqlTypes.NUMERIC) ∧
    ((∃ c ∈ (derive_cleaned s).data, c.isAlpha = true) →
      parses_f64 (derive_cleaned s).data = false →
      parses_bool (derive_stripped s) = false →
      derive_type s = SqlTypes.TEXT) := by
  refine ⟨?_, ?_, ?_, ?_⟩
  · intro hdc hne hval
    have hplain : ∀ c ∈ s.data, plainChar c = true := by
      intro c hc
      rcases hdc c hc with hd | e
      · exact digit_plain hd
      · subst e; decide
    have hstr : derive_stripped s = s := derive_stripped_id s hplain
    have epct : ((("%") : String)).data = ['%'] := rfl
    have ecom : (((",") : String)).data = [','] := rfl
    have enil : ((("") : String)).data = [] := rfl
    have hclean : (derive_cleaned s).data =
        s.data.filter (fun c => !(decide (c = ','))) := by
      unfold derive_cleaned clean_integer_or_double_string
      rw [hstr]
      show replaceAll ((("%") : String).data) ((("") : String).data)
        (replaceAll (((",") : String).data) ((("") : String).data) s.data) = _
      rw [epct, ecom, enil, replaceAll_singleton, replaceAll_singleton]
      apply List.filter_eq_self.mpr
      intro c hc
      have hmem := List.mem_filter.mp hc
      rcases hdc c hmem.1 with hd | e
      · have : c ≠ '%' := pred_ne hd (by decide)
        simp [this]
      · subst e; decide
    have hi : parses_i64 (derive_cleaned s).data = true := by
      rw [hclean]
      apply parses_i64_digits hne
      · intro c hc
        have hmem := List.mem_filter.mp hc
        rcases hdc c hmem.1 with hd | e
        · exact hd
        · exfalso
          have := hmem.2
          rw [e] at this
          simp at this
      · exact hval
    simp [derive_type, hi]
  · intro hb
    obtain ⟨a, b, hdata, hane, hbne, hada, hadb⟩ := hb
    have hplain : ∀ c ∈ s.data, plainChar c = true := by
      intro c hc
      rw [hdata] at hc
      rcases List.mem_append.mp hc with hca | hcb
      · exact digit_plain (hada c hca)
      · rcases List.mem_cons.mp hcb with e | hcb2
        · subst e; decide
        · rcases List.mem_append.mp hcb2 with hcb3 | hcpct
          · exact digit_plain (hadb c hcb3)
          · have e := List.mem_singleton.mp hcpct
            subst e; decide
    have hstr : derive_stripped s = s := derive_stripped_id s hplain
    have epct : ((("%") : String)).data = ['%'] := rfl
    have ecom : (((",") : String)).data = [','] := rfl
    have enil : ((("") : String)).data = [] := rfl
    have hclean : (derive_cleaned s).data = a ++ '.' :: b := by
      unfold derive_cleaned clean_integer_or_double_string
      rw [hstr]
      show replaceAll ((("%") : String).data) ((("") : String).data)
        (replaceAll (((",") : String).data) ((("") : String).data) s.data) = _
      rw [epct, ecom, enil, replaceAll_singleton, replaceAll_singleton, hdata]
      have hnocomma : ∀ c ∈ a ++ '.' :: (b ++ [('%')]),
          (!(decide (c = ','))) = true := by
        intro c hc
        rcases List.mem_append.mp hc with hca | hcb
        · have : c ≠ ',' := pred_ne (hada c hca) (by decide)
          simp [this]
        · rcases List.mem_cons.mp hcb with e | hcb2
          · subst e; decide
          · rcases List.mem_append.mp hcb2 with hcb3 | hcpct
            · have : c ≠ ',' := pred_ne (hadb c hcb3) (by decide)
              simp [this]
            · have e := List.mem_singleton.mp hcpct
              subst e; decide
      rw [List.filter_eq_self.mpr hnocomma]
      have hfa : a.filter (fun c => !(decide (c = '%'))) = a := by
        apply List.filter_eq_self.mpr
        intro c hc
        have : c ≠ '%' := pred_ne (hada c hc) (by decide)
        simp [this]
      have hfb : b.filter (fun c => !(decide (c = '%'))) = b := by
        apply List.filter_eq_self.mpr
        intro c hc
        have : c ≠ '%' := pred_ne (hadb c hc) (by decide)
        simp [this]
      simp [List.filter_append, List.filter_cons, hfa, hfb]
    have hi : parses_i64 (derive_cleaned s).data = false := by
      rw [hclean]
      exact parses_i64_false_dot a b hane hada
    have hf : parses_f64 (derive_cleaned s).data = true := by
      rw [hclean]
      cases a with
      | nil => exact absurd rfl hane
      | cons a0 a1 =>
        have ha0 := hada a0 (List.mem_cons_self a0 a1)
        have hs1 : a0 ≠ '+' := pred_ne ha0 (by decide)
        have hs2 : a0 ≠ '-' := pred_ne ha0 (by decide)
        have hsgn : sgnStrip (a0 :: (a1 ++ '.' :: b)) = a0 :: (a1 ++ '.' :: b) := by
          show (if a0 = '+' ∨ a0 = '-' then (a1 ++ '.' :: b)
            else a0 :: (a1 ++ '.' :: b)) = a0 :: (a1 ++ '.' :: b)
          rw [if_neg]
          rintro (e | e)
          · exact hs1 e
          · exact hs2 e
        have htw := takeWhile_app Char.isDigit (a0 :: a1) '.' b hada (by decide)
        have hd0 : a0 ≠ '.' := pred_ne ha0 (by decide)
        have hnum : numberOk (a0 :: (a1 ++ '.' :: b)) = true := by
          show (if a0 = '.' then
              !((a1 ++ '.' :: b).takeWhile Char.isDigit).isEmpty &&
                expPart ((a1 ++ '.' :: b).dropWhile Char.isDigit)
            else
              !((a0 :: (a1 ++ '.' :: b)).takeWhile Char.isDigit).isEmpty &&
                fracExp ((a0 :: (a1 ++ '.' :: b)).dropWhile Char.isDigit)) = true
          rw [if_neg hd0, Bool.and_eq_true]
          constructor
          · rw [show a0 :: (a1 ++ '.' :: b) = (a0 :: a1) ++ '.' :: b from rfl]
            rw [htw.1]
            simp
          · rw [show a0 :: (a1 ++ '.' :: b) = (a0 :: a1) ++ '.' :: b from rfl]
            rw [htw.2]
            show (if ('.') = '.' then expPart (b.dropWhile Char.isDigit)
              else expPart ('.' :: b)) = true
            rw [if_pos rfl, dropWhile_all Char.isDigit b hadb]
            rfl
        unfold parses_f64
        rw [List.cons_append, hsgn, hnum]
        simp
    simp [derive_type, hi, hf]
  · rintro (e | e) <;> (subst e; decide)
  · intro hex hf hb
    have hi : parses_i64 (derive_cleaned s).data = false := parses_i64_false_of_alpha hex
    simp [derive_type, hi, hf, hb]

/-- Witness for C2 at the four concrete inputs of the claim. -/
theorem wtd_C2_witness :
    derive_type ("1,402,843,280") = SqlTypes.INTEGER ∧
    derive_type ("18.0%") = SqlTypes.REAL ∧
    derive_type ("true") = SqlTypes.NUMERIC ∧
    derive_type ("some text") = SqlTypes.TEXT :=
  ⟨(wtd_C2_amended ("1,402,843,280")).1 (by decide) (by decide) (by decide),
   (wtd_C2_amended ("18.0%")).2.1
     ⟨[('1'), ('8')], [('0')], by decide, by decide, by decide, by decide, by decide⟩,
   (wtd_C2_amended ("true")).2.2.1 (Or.inl rfl),
   (wtd_C2_amended ("some text")).2.2.2 (by decide) (by decide) (by decide)⟩

/-- C3 counterexample: for the cell whose citation-stripped form is a space
followed by 5, the fully-cleaned trimmed string 5 parses as an integer, so
the claim demands the bare token 5, but clean_row emits the quoted token,
because the source classifies on the untrimmed value. -/
theorem wtd_C3_counterexample :
    clean_row [("[a] 5")] = [("'5'")] ∧
    parses_i64 (strTrim (clean_integer_or_double_string (remove_wiki_citation_links
      (remove_apostrophe (remove_html_tags ("[a] 5")))))).data = true ∧
    ((("'5'") : String)) ≠ ("5") :=
  ⟨by decide, by decide, by decide⟩

/-- C3 (amended): clean_row applies, per cell, tag strip, then apostrophe
doubling, then citation strip, then comma and percent removal, and
classifies on that untrimmed cleaned value: if it parses as an integer or
float the token is that bare value, otherwise the token is the trimmed text
wrapped in single quotes; in particular a cell containing O'Brien cleans to
the quoted doubled-apostrophe form. -/
theorem wtd_C3_amended (row : List String) :
    clean_row row = row.map cleanCellSpec ∧
    clean_row [("O'Brien")] = [("'O''Brien'")] := by
  constructor
  · have hfun : ∀ e, cleanCell e = cleanCellSpec e := by
      intro e
      simp only [cleanCell, cleanCellSpec]
      cases h1 : parses_i64 (clean_integer_or_double_string (remove_wiki_citation_links
          (remove_apostrophe (remove_html_tags e)))).data <;>
        cases h2 : parses_f64 (clean_integer_or_double_string (remove_wiki_citation_links
            (remove_apostrophe (remove_html_tags e)))).data <;>
          simp [h1, h2]
    unfold clean_row
    rw [funext hfun]
  · decide

/-- C4 (code bug): the claim says a missing or empty header row surfaces a
TableHeaderNotFound-class error; the code instead panics (unwrap of none,
modelled as the none result) when the tbody has zero rows, and silently
succeeds with an empty header list when row zero exists but holds no header
cells. -/
theorem wtd_C4_bug :
    get_table_header_names docC4a = none ∧
    get_table_header_names docC4b = some (Except.ok []) :=
  ⟨rfl, rfl⟩

/-- C5 (code bug): the claim says a create_table failure is propagated as
an error result from extract_data and insert_rows is not executed; the code
unwraps the create_table result, so both a connection failure and a CREATE
TABLE execution failure panic (the none result) instead of returning the
error. -/
theorem wtd_C5_bug :
    extract_data docC5 ⟨false, fun _ => true⟩ = none ∧
    extract_data docC5 ⟨true, fun _ => false⟩ = none :=
  ⟨rfl, rfl⟩

/-- C6 counterexample: on a document whose body rows are all empty,
create_insert_statement returns the lone semicolon, not the claimed
INSERT-into prelude followed by VALUES and a semicolon. -/
theorem wtd_C6_counterexample :
    create_insert_statement ("My Table") docC6 = Except.ok ((";")) ∧
    (((";") : String)) ≠ ("INSERT into My_Table VALUES ;") :=
  ⟨rfl, by decide⟩

/-- C6 (amended): if every body row is empty after cleaning,
create_insert_statement returns the degenerate statement consisting of a
single semicolon. -/
theorem wtd_C6_amended (table_name : String) (d : Doc) (rows : List (List String))
    (h : get_raw_table_rows d = Except.ok rows)
    (hall : ∀ r ∈ rows, clean_row r = []) :
    create_insert_statement table_name d = Except.ok ((";")) := by
  unfold create_insert_statement
  rw [h]
  show Except.ok ((rows.foldl (insertStep table_name) (("" : String))) ++ (";")) =
    Except.ok ((";"))
  rw [create_insert_fold_spec table_name rows]
  have hv : valuesTuples rows = [] := by
    unfold valuesTuples
    have hfil : (rows.map clean_row).filter (fun c => !(decide (c = []))) = [] := by
      rw [List.filter_eq_nil_iff]
      intro a ha
      obtain ⟨r, hr, e⟩ := List.mem_map.mp ha
      rw [← e, hall r hr]
      simp
    rw [hfil]
    rfl
  exact congrArg Except.ok (by unfold specInsert; rw [hv])

/-- Witness for C6 on a concrete document whose two body rows are empty. -/
theorem wtd_C6_witness : create_insert_statement ("T") docC6 = Except.ok ((";")) :=
  wtd_C6_amended ("T") docC6 [[], []] rfl (by decide)

/-- C7: whenever the inferred type count differs from the header count the
pairing step fails with HeaderAndTypesAmountMismatch, and whenever the
counts agree the whole header-and-type extraction succeeds with each header
paired to its type in order. -/
theorem wtd_C7 (headers types : List String) (d : Doc) :
    (headers.length ≠ types.length →
      pair_headers_with_types headers types =
        some (Except.error WtdError.HeaderAndTypesAmountMismatch)) ∧
    (get_table_header_names d = some (Except.ok headers) →
      get_table_header_types d headers.length = some types →
      get_table_headers_and_types_from_html d =
        some (Except.ok (headers.zip types))) := by
  constructor
  · intro hne
    unfold pair_headers_with_types
    rw [if_neg hne]
  · intro h1 h2
    have hlen : types.length = headers.length := get_table_header_types_length h2
    unfold get_table_headers_and_types_from_html
    rw [h1]
    show (match get_table_header_types d headers.length with
      | none => none
      | some table_header_types =>
        pair_headers_with_types headers table_header_types) =
      some (Except.ok (headers.zip types))
    rw [h2]
    show pair_headers_with_types headers types = some (Except.ok (headers.zip types))
    unfold pair_headers_with_types
    rw [if_pos hlen.symm]
    rw [popAll_reverse_zip headers types hlen.symm]

/-- Witness for C7: a mismatched pair of lists fails with the mismatch
error, and a concrete document with agreeing counts succeeds with the
ordered pairing. -/
theorem wtd_C7_witness :
    pair_headers_with_types [("A")] [] =
      some (Except.error WtdError.HeaderAndTypesAmountMismatch) ∧
    get_table_headers_and_types_from_html docC7 =
      some (Except.ok [(("A"), ("INTEGER"))]) :=
  ⟨(wtd_C7 [("A")] [] docC7).1 (by decide),
   (wtd_C7 [("A")] [("INTEGER")] docC7).2 rfl rfl⟩

/-- C9: every body row that cleans to zero cells contributes no values
tuple: the INSERT statement equals the closed form built from only the
non-empty cleaned rows, and the tuple count equals the number of rows whose
cleaned form is non-empty. -/
theorem wtd_C9 (table_name : String) (d : Doc) (rows : List (List String))
    (h : get_raw_table_rows d = Except.ok rows) :
    create_insert_statement table_name d = Except.ok (specInsert table_name rows) ∧
    (valuesTuples rows).length =
      (rows.filter (fun r => !(decide (clean_row r = [])))).length := by
  constructor
  · unfold create_insert_statement
    rw [h]
    show Except.ok ((rows.foldl (insertStep table_name) (("" : String))) ++ (";")) = _
    rw [create_insert_fold_spec table_name rows]
  · unfold valuesTuples
    rw [List.length_map, List.filter_map, List.length_map]
    rfl

/-- Witness for C9 on a concrete document with one empty body row among
three. -/
theorem wtd_C9_witness :
    create_insert_statement ("T") docC9 =
      Except.ok (specInsert ("T") [[("1")], [], [("x")]]) :=
  (wtd_C9 ("T") docC9 [[("1")], [], [("x")]] rfl).1

/-- C10: get_table_header_types slices the first num document-order data
cells, so when the first wikitable holds fewer data cells than headers the
slice is out of range and the function and the whole extraction panic (the
none result) instead of returning an error result; with enough data cells
it is total and returns one inferred type name per header. -/
theorem wtd_C10 (d : Doc) (headers cells : List String)
    (h1 : get_table_header_names d = some (Except.ok headers))
    (h2 : get_table_cells d = some cells) :
    (cells.length < headers.length →
      get_table_header_types d headers.length = none ∧
      get_table_headers_and_types_from_html d = none) ∧
    (headers.length ≤ cells.length →
      get_table_header_types d headers.length =
        some ((cells.take headers.length).map
          (fun s => SqlTypes.toStr (derive_type s)))) := by
  constructor
  · intro hlt
    have ht : get_table_header_types d headers.length = none := by
      unfold get_table_header_types
      rw [h2]
      show (if headers.length ≤ cells.length then
        some ((cells.take headers.length).map
          (fun s => SqlTypes.toStr (derive_type s))) else none) = none
      rw [if_neg (by omega)]
    refine ⟨ht, ?_⟩
    unfold get_table_headers_and_types_from_html
    rw [h1]
    show (match get_table_header_types d headers.length with
      | none => none
      | some table_header_types =>
        pair_headers_with_types headers table_header_types) = none
    rw [ht]
  · intro hle
    unfold get_table_header_types
    rw [h2]
    show (if headers.length ≤ cells.length then
      some ((cells.take headers.length).map
        (fun s => SqlTypes.toStr (derive_type s))) else none) = _
    rw [if_pos hle]

/-- Witness for C10 on a concrete document with two headers and a single
data cell. -/
theorem wtd_C10_witness :
    get_table_header_types docC10 2 = none ∧
    get_table_headers_and_types_from_html docC10 = none :=
  (wtd_C10 docC10 [("A"), ("B")] [("1")] rfl rfl).1 (by decide)

/-- C8 counterexample: sanitize is not idempotent: removing the tag from
the input leaves a non-breaking-space entity that only the second pass
replaces, so the second application changes the result. -/
theorem wtd_C8_counterexample :
    remove_html_tags ("&<i>nbsp;") = ("&nbsp;") ∧
    remove_html_tags (("&nbsp;")) = ("") ∧
    remove_html_tags (remove_html_tags ("&<i>nbsp;")) ≠
      remove_html_tags ("&<i>nbsp;") :=
  ⟨by decide, by decide, by decide⟩

/-- C8 (amended): sanitize is idempotent on every string whose sanitized
form contains no residual non-breaking-space entity, no residual line-break
tag, and no tag-pattern match. -/
theorem remove_html_tags_data (s : String) : (remove_html_tags s).data =
    trimChars (removeTagsChars (replaceAll ((("<br>") : String).data)
      (((" ") : String).data) (replaceAll ((("&nbsp;") : String).data)
        (((" ") : String).data) s.data))) := rfl

theorem wtd_C8_amended (s : String)
    (h1 : containsSub ((("&nbsp;") : String).data) (remove_html_tags s).data = false)
    (h2 : containsSub ((("<br>") : String).data) (remove_html_tags s).data = false)
    (h3 : hasTag (remove_html_tags s).data = false) :
    remove_html_tags (remove_html_tags s) = remove_html_tags s := by
  apply (str_eq_iff_data _ _).mpr
  rw [remove_html_tags_data (remove_html_tags s)]
  rw [replaceAll_id _ _ _ h1, replaceAll_id _ _ _ h2, removeTags_id _ h3]
  rw [remove_html_tags_data s]
  rw [trimChars_idem]

/-- Witness for C8 at a concrete input whose sanitized form is plain. -/
theorem wtd_C8_witness :
    remove_html_tags (remove_html_tags ("a<b>c")) = remove_html_tags ("a<b>c") :=
  wtd_C8_amended ("a<b>c") (by decide) (by decide) (by decide)
